import Mathlib

/-!
Verification of the affinity-constrained execution bridge and the line-oriented
JSON command servers of this repository (src/addon.py and
src/core-assets/mcp-tools/imagemagick_mcp.py), as a shallow embedding in Lean.
-/

namespace BlenderMCP

/-! ## JSON data model

JSON values as produced by json.loads and consumed by json.dumps.  Numbers are
modelled as integers, which covers every payload the servers produce.  Lists
and objects are mutual inductives so that all recursion over them is
structural. -/

mutual

inductive Json where
  | null : Json
  | bool (b : Bool) : Json
  | num (n : Int) : Json
  | str (s : String) : Json
  | arr (elems : JsonList) : Json
  | obj (fields : JsonFields) : Json

inductive JsonList where
  | nil : JsonList
  | cons (head : Json) (tail : JsonList) : JsonList

inductive JsonFields where
  | nil : JsonFields
  | cons (key : String) (value : Json) (tail : JsonFields) : JsonFields

end

/-! ## json.dumps

Python json.dumps with its defaults: separators (", ", ": ") and
ensure_ascii=True, so every character outside printable ASCII is emitted as an
escape sequence. -/

/-- Lowercase hexadecimal digit character of n modulo 16. -/
def hexDigit (n : Nat) : Char :=
  if n % 16 < 10 then Char.ofNat (48 + n % 16) else Char.ofNat (87 + n % 16)

def hex4 (n : Nat) : String :=
  String.mk [hexDigit (n / 4096), hexDigit (n / 256), hexDigit (n / 16), hexDigit n]

/-- Escape one character the way json.dumps with ensure_ascii=True does: the two
JSON specials get backslash escapes, the named control characters get short
escapes, every other character outside printable ASCII becomes a \u escape
(a surrogate pair beyond the basic plane), and printable ASCII is verbatim. -/
def escapeChar (c : Char) : String :=
  if c = '"' then "\\\""
  else if c = '\\' then "\\\\"
  else if c = '\n' then "\\n"
  else if c = '\r' then "\\r"
  else if c = '\t' then "\\t"
  else if c.toNat = 8 then "\\b"
  else if c.toNat = 12 then "\\f"
  else if c.toNat < 32 ∨ 126 < c.toNat then
    if c.toNat < 65536 then "\\u" ++ hex4 c.toNat
    else "\\u" ++ hex4 (55296 + (c.toNat - 65536) / 1024) ++
         "\\u" ++ hex4 (56320 + (c.toNat - 65536) % 1024)
  else String.singleton c

def escapeList : List Char → String
  | [] => ""
  | c :: cs => escapeChar c ++ escapeList cs

def dumpString (s : String) : String := "\"" ++ escapeList s.data ++ "\""

def natDigitsAux : Nat → Nat → List Char
  | _, 0 => []
  | 0, _ => []
  | fuel + 1, m => natDigitsAux fuel (m / 10) ++ [hexDigit (m % 10)]

def natDigits (n : Nat) : List Char := natDigitsAux n n

def natRepr (n : Nat) : String := if n = 0 then "0" else String.mk (natDigits n)

def intRepr (i : Int) : String :=
  if i < 0 then "-" ++ natRepr i.natAbs else natRepr i.natAbs

mutual

def dumps : Json → String
  | .null => "null"
  | .bool true => "true"
  | .bool false => "false"
  | .num n => intRepr n
  | .str s => dumpString s
  | .arr elems => "[" ++ dumpsElems elems ++ "]"
  | .obj fields => "\x7b" ++ dumpsFields fields ++ "\x7d"

def dumpsElems : JsonList → String
  | .nil => ""
  | .cons j .nil => dumps j
  | .cons j rest => dumps j ++ ", " ++ dumpsElems rest

def dumpsFields : JsonFields → String
  | .nil => ""
  | .cons k v .nil => dumpString k ++ ": " ++ dumps v
  | .cons k v rest => dumpString k ++ ": " ++ dumps v ++ ", " ++ dumpsFields rest

end

/-! ## Convenience constructors and Python-style accessors -/

def JsonList.ofList : List Json → JsonList
  | [] => .nil
  | j :: rest => .cons j (JsonList.ofList rest)

def JsonFields.ofList : List (String × Json) → JsonFields
  | [] => .nil
  | (k, v) :: rest => .cons k v (JsonFields.ofList rest)

def jArr (l : List Json) : Json := .arr (JsonList.ofList l)

def jObj (l : List (String × Json)) : Json := .obj (JsonFields.ofList l)

/-- Lookup in a decoded JSON object.  Python builds a dict while parsing, so a
duplicated key keeps its last occurrence; lookup mirrors that. -/
def fieldsGet : JsonFields → String → Option Json
  | .nil, _ => none
  | .cons k v rest, key =>
      match fieldsGet rest key with
      | some r => some r
      | none => if k = key then some v else none

/-- dict.get(key, default) on a decoded JSON object. -/
def dictGet (fields : JsonFields) (key : String) (default : Json) : Json :=
  (fieldsGet fields key).getD default

/-- Python type name of a decoded JSON value, as it appears in error texts. -/
def pyTypeName : Json → String
  | .null => "NoneType"
  | .bool _ => "bool"
  | .num _ => "int"
  | .str _ => "str"
  | .arr _ => "list"
  | .obj _ => "dict"

/-- Message of the AttributeError raised by value.get(...) on a non-dict. -/
def noAttrGet (j : Json) : String :=
  "\x27" ++ pyTypeName j ++ "\x27 object has no attribute \x27get\x27"

mutual

def pyRepr : Json → String
  | .null => "None"
  | .bool true => "True"
  | .bool false => "False"
  | .num n => intRepr n
  | .str s => "\x27" ++ s ++ "\x27"
  | .arr elems => "[" ++ pyReprElems elems ++ "]"
  | .obj fields => "\x7b" ++ pyReprFields fields ++ "\x7d"

def pyReprElems : JsonList → String
  | .nil => ""
  | .cons j .nil => pyRepr j
  | .cons j rest => pyRepr j ++ ", " ++ pyReprElems rest

def pyReprFields : JsonFields → String
  | .nil => ""
  | .cons k v .nil => "\x27" ++ k ++ "\x27: " ++ pyRepr v
  | .cons k v rest => "\x27" ++ k ++ "\x27: " ++ pyRepr v ++ ", " ++ pyReprFields rest

end

/-- Python str() of a decoded JSON value, as interpolated by an f-string. -/
def pyStr : Json → String
  | .str s => s
  | j => pyRepr j

/-! ## Command registry and dispatch (addon.py, execute_command)

Handlers may raise; a raised exception is an .error carrying str(e).  The five
handlers whose bodies call into bpy are fields of an environment; the remaining
six are pure in the source and appear here concretely. -/

abbrev Handler := Json → Except String Json

structure ExecEnv where
  sceneInfo : Handler
  objectInfo : Handler
  viewportScreenshot : Handler
  executeCode : Handler
  setTexture : Handler

def polyhavenCategoriesTable : List (String × Json) :=
  [("hdris", jArr [.str "outdoor", .str "indoor", .str "studio", .str "nature"]),
   ("textures", jArr [.str "fabric", .str "wood", .str "metal", .str "concrete", .str "plastic"]),
   ("models", jArr [.str "furniture", .str "nature", .str "architecture", .str "props"])]

/-- dict.get(key, default) with an arbitrary decoded value as the key: an
unhashable key raises TypeError, a hashable non-string key misses. -/
def strKeyGet (table : List (String × Json)) (key : Json) : Except String (Option Json) :=
  match key with
  | .str s => .ok ((table.find? (fun kv => kv.1 == s)).map (fun kv => kv.2))
  | .arr _ => .error "unhashable type: \x27list\x27"
  | .obj _ => .error "unhashable type: \x27dict\x27"
  | _ => .ok none

def getPolyhavenCategories : Handler := fun params =>
  match params with
  | .obj fields =>
      match strKeyGet polyhavenCategoriesTable (dictGet fields "asset_type" (.str "hdris")) with
      | .error e => .error e
      | .ok r => .ok (jObj [("categories", r.getD (jArr []))])
  | other => .error (noAttrGet other)

def searchPolyhavenAssets : Handler := fun params =>
  match params with
  | .obj _ =>
      .ok (jObj [("assets", jArr
        [jObj [("id", .str "concrete_wall_01"), ("name", .str "Concrete Wall 01"),
               ("type", .str "textures"), ("category", .str "concrete")],
         jObj [("id", .str "wooden_floor_02"), ("name", .str "Wooden Floor 02"),
               ("type", .str "textures"), ("category", .str "wood")]])])
  | other => .error (noAttrGet other)

def downloadPolyhavenAsset : Handler := fun params =>
  match params with
  | .obj fields =>
      let assetId := dictGet fields "asset_id" (.str "")
      .ok (jObj [("status", .str "Downloaded"), ("asset_id", assetId),
                 ("path", .str ("/tmp/" ++ pyStr assetId ++ ".blend"))])
  | other => .error (noAttrGet other)

def polyhavenStatus : Handler := fun _ =>
  .ok (jObj [("status", .str "PolyHaven integration is enabled")])

def hyper3dStatus : Handler := fun _ =>
  .ok (jObj [("status", .str "Hyper3D integration is not configured")])

def sketchfabStatus : Handler := fun _ =>
  .ok (jObj [("status", .str "Sketchfab integration is not configured")])

/-- The handlers mapping of execute_command, in source order. -/
def handlers (env : ExecEnv) : List (String × Handler) :=
  [("get_scene_info", env.sceneInfo),
   ("get_object_info", env.objectInfo),
   ("get_viewport_screenshot", env.viewportScreenshot),
   ("execute_blender_code", env.executeCode),
   ("get_polyhaven_categories", getPolyhavenCategories),
   ("search_polyhaven_assets", searchPolyhavenAssets),
   ("download_polyhaven_asset", downloadPolyhavenAsset),
   ("set_texture", env.setTexture),
   ("get_polyhaven_status", polyhavenStatus),
   ("get_hyper3d_status", hyper3dStatus),
   ("get_sketchfab_status", sketchfabStatus)]

/-- The registered tool names, i.e. the keys of the handlers mapping. -/
def registeredTools : List String :=
  ["get_scene_info", "get_object_info", "get_viewport_screenshot",
   "execute_blender_code", "get_polyhaven_categories", "search_polyhaven_assets",
   "download_polyhaven_asset", "set_texture", "get_polyhaven_status",
   "get_hyper3d_status", "get_sketchfab_status"]

/-- execute_command: read tool (default the empty string) and params (default
the empty dict) off the decoded command, look the tool up in the handlers
mapping, run the handler when found, otherwise return the Unknown tool error
response.  A non-dict command raises AttributeError at command.get. -/
def executeCommand (env : ExecEnv) (command : Json) : Except String Json :=
  match command with
  | .obj fields =>
      let tool := dictGet fields "tool" (.str "")
      let params := dictGet fields "params" (jObj [])
      match tool with
      | .str s =>
          match (handlers env).find? (fun kv => kv.1 == s) with
          | some kv => kv.2 params
          | none => .ok (jObj [("error", .str ("Unknown tool: " ++ s))])
      | .arr _ => .error "unhashable type: \x27list\x27"
      | .obj _ => .error "unhashable type: \x27dict\x27"
      | other => .ok (jObj [("error", .str ("Unknown tool: " ++ pyStr other))])
  | other => .error (noAttrGet other)

/-! ## Affinity execution bridge (addon.py, _handle_client lines 109-134) -/

/-- Observable effect of one run of execute_wrapper: the value written into the
nonlocal response slot, the number of times the completion event was set, and
the value returned to the timer system (None means the timer is dropped and the
wrapper is never re-registered). -/
structure WrapperEffect where
  slot : Json
  signalSets : Nat
  timerReturn : Option Int

/-- execute_wrapper: try runs execute_command into the response slot, except
catches any raised exception into an error response, finally sets the
completion event, and the wrapper returns None for the timer system. -/
def executeWrapper (env : ExecEnv) (command : Json) : WrapperEffect :=
  match executeCommand env command with
  | .ok r => { slot := r, signalSets := 1, timerReturn := none }
  | .error e => { slot := jObj [("error", .str e)], signalSets := 1, timerReturn := none }

/-- The wait deadline passed to response_event.wait, in time units. -/
def defaultTimeout : Nat := 30

/-- The pre-populated timeout response of _handle_client, also sent when the
wait deadline elapses. -/
def timeoutResponse : Json := jObj [("error", .str "Command execution timeout")]

/-- Response sent back for one decoded command object: the worker blocks on the
completion event for at most timeout; completion is the instant the affinity
thread finishes the wrapper.  If the event fires within the deadline the
populated slot is sent, otherwise the timeout error is sent and the task's
late result is discarded. -/
def bridgeSend (env : ExecEnv) (command : Json) (timeout completion : Nat) : Json :=
  if completion ≤ timeout then (executeWrapper env command).slot else timeoutResponse

/-- The instant at which response_event.wait returns control to the worker. -/
def bridgeUnblockTime (timeout completion : Nat) : Nat := min completion timeout

/-! ## Per-connection worker loop (addon.py, _handle_client lines 95-146) -/

inductive WorkerEffect where
  | registerTimer : WorkerEffect
  | send (payload : Json) : WorkerEffect

/-- Handling of one received chunk: a json decode failure sends one Invalid
JSON error and keeps reading; a decoded non-object raises AttributeError at the
command.get call inside the loop, caught into a Command error response; a
decoded object is first registered on the host timer queue (the bridge) and
then answered from the bridge wait.  The Bool is whether the loop keeps the
connection open afterwards. -/
def processMessage (env : ExecEnv) (decoded : Except String Json)
    (timeout completion : Nat) : List WorkerEffect × Bool :=
  match decoded with
  | .error e => ([.send (jObj [("error", .str ("Invalid JSON: " ++ e))])], true)
  | .ok command =>
      match command with
      | .obj _ => ([.registerTimer, .send (bridgeSend env command timeout completion)], true)
      | other => ([.send (jObj [("error", .str ("Command error: " ++ noAttrGet other))])], true)

inductive ConnEvent where
  | read (decoded : Except String Json) : ConnEvent
  | registerTimer : ConnEvent
  | write (payload : Json) : ConnEvent

def effectEvent : WorkerEffect → ConnEvent
  | .registerTimer => .registerTimer
  | .send p => .write p

/-- Event trace of the per-connection loop over the sequence of received
chunks, each paired with the completion instant of its bridge task: read one
chunk, process it, write the response, repeat until recv returns no data. -/
def connTrace (env : ExecEnv) (timeout : Nat) :
    List (Except String Json × Nat) → List ConnEvent
  | [] => []
  | (m, c) :: rest =>
      .read m :: (processMessage env m timeout c).1.map effectEvent ++ connTrace env timeout rest

/-- The response _handle_client writes for one received chunk. -/
def responseFor (env : ExecEnv) (timeout : Nat) (decoded : Except String Json)
    (completion : Nat) : Json :=
  match decoded with
  | .error e => jObj [("error", .str ("Invalid JSON: " ++ e))]
  | .ok command =>
      match command with
      | .obj _ => bridgeSend env command timeout completion
      | other => jObj [("error", .str ("Command error: " ++ noAttrGet other))]

/-! ## Host task queue semantics

The host drains registered timer callbacks on its single main thread, one at a
time, in registration order; a callback returning None is dropped after its
single run.  Worker threads only enqueue.  States track the queued, currently
executing and finished tasks by their registration number. -/

structure BridgeState where
  queue : List Nat
  running : List Nat
  finished : List Nat
  nextId : Nat

inductive Actor where
  | worker (id : Nat) : Actor
  | host : Actor

inductive Step : BridgeState → Actor → BridgeState → Prop
  | enqueue (w : Nat) (s : BridgeState) :
      Step s (.worker w)
        { s with queue := s.queue ++ [s.nextId], nextId := s.nextId + 1 }
  | hostStart (s : BridgeState) (t : Nat) (rest : List Nat) :
      s.running = [] → s.queue = t :: rest →
      Step s .host { s with queue := rest, running := [t] }
  | hostFinish (s : BridgeState) (t : Nat) :
      s.running = [t] →
      Step s .host { s with running := [], finished := s.finished ++ [t] }

def initBridge : BridgeState := { queue := [], running := [], finished := [], nextId := 0 }

inductive Reachable : BridgeState → Prop
  | init : Reachable initBridge
  | step (s : BridgeState) (a : Actor) (s' : BridgeState) :
      Reachable s → Step s a s' → Reachable s'

/-- Reflexive-transitive closure of host-only steps. -/
inductive HostSteps : BridgeState → BridgeState → Prop
  | refl (s : BridgeState) : HostSteps s s
  | step (s1 s2 s3 : BridgeState) : Step s1 .host s2 → HostSteps s2 s3 → HostSteps s1 s3

/-! ## Server lifecycle (addon.py, BlenderMCPServer.start / stop) -/

structure ServerState where
  running : Bool
  socket : Option Bool
  threadStarted : Bool
  executorShutdown : Bool

/-- BlenderMCPServer.stop: clears running, closes the listening socket when one
exists (close errors are swallowed), and shuts the worker pool down. -/
def serverStop (s : ServerState) : ServerState :=
  { running := false,
    socket := s.socket.map (fun _ => false),
    threadStarted := s.threadStarted,
    executorShutdown := true }

/-- BlenderMCPServer.start: returns at once when already running; otherwise
creates and binds the listening socket and spawns the server thread, falling
back to stop() when binding fails. -/
def serverStart (bindOk : Bool) (s : ServerState) : ServerState :=
  if s.running then s
  else
    let s1 : ServerState := { s with socket := some true }
    if bindOk then { s1 with running := true, threadStarted := true }
    else serverStop s1

/-! ## Viewport screenshot handler (addon.py, _get_viewport_screenshot) -/

structure RenderSettings where
  resolution_x : Json
  resolution_y : Json
  resolution_percentage : Json
  filepath : String

def b64Chars : List Char :=
  "ABCDEFGHIJKLMNOPQRSTUVWXYZabcdefghijklmnopqrstuvwxyz0123456789+/".data

def b64Char (n : Nat) : Char := b64Chars.getD (n % 64) 'A'

/-- base64.b64encode over a byte list (standard alphabet, padded). -/
def base64Encode : List Nat → String
  | [] => ""
  | [a] => String.mk [b64Char (a / 4), b64Char (a % 4 * 16), '=', '=']
  | [a, b] => String.mk [b64Char (a / 4), b64Char (a % 4 * 16 + b / 16),
                         b64Char (b % 16 * 4), '=']
  | a :: b :: c :: rest =>
      String.mk [b64Char (a / 4), b64Char (a % 4 * 16 + b / 16),
                 b64Char (b % 16 * 4 + c / 64), b64Char (c % 64)] ++ base64Encode rest

/-- Model of _get_viewport_screenshot.  renderResult is the outcome of the try
body after the settings were overwritten: the temp-file bytes when render and
read succeeded, or the text of whatever the try body raised (render failure,
assignment type error, file error).  tempPath is the NamedTemporaryFile name.
The four original settings are saved before the try block and written back in
the finally block on both exits; a non-dict params raises at params.get before
any setting is touched. -/
def getViewportScreenshot (renderResult : Except String (List Nat)) (tempPath : String)
    (params : Json) (render : RenderSettings) : Except String Json × RenderSettings :=
  match params with
  | .obj fields =>
      let maxSize := dictGet fields "max_size" (.num 800)
      let origX := render.resolution_x
      let origY := render.resolution_y
      let origP := render.resolution_percentage
      let origF := render.filepath
      let r1 : RenderSettings :=
        { render with resolution_x := maxSize, resolution_y := maxSize,
                      resolution_percentage := .num 100 }
      let r2 : RenderSettings := { r1 with filepath := tempPath }
      let rFinal : RenderSettings :=
        { r2 with resolution_x := origX, resolution_y := origY,
                  resolution_percentage := origP, filepath := origF }
      match renderResult with
      | .ok bytes =>
          (.ok (jObj [("image", .str (base64Encode bytes)), ("format", .str "png"),
                      ("width", maxSize), ("height", maxSize)]), rFinal)
      | .error e => (.error e, rFinal)
  | other => (.error (noAttrGet other), render)

/-! ## Wire framing (imagemagick_mcp.py main loop versus addon.py sendall) -/

/-- Response write of the stdio image server: sys.stdout.write of
json.dumps(response) followed by one newline. -/
def magickEncodeResponse (r : Json) : String := dumps r ++ "\n"

/-- Request framing of the stdio image server: the request stream is consumed
line by line, so the newline byte also delimits requests (json.loads ignores
the trailing newline kept by line iteration). -/
def magickSplitRequests (input : String) : List String := input.splitOn "\n"

/-- Response write of the TCP bridge: sendall of the bare json.dumps output,
with nothing appended. -/
def addonEncodeResponse (r : Json) : String := dumps r

/-! ## Projections of connection events and concrete fixtures -/

/-- Keep only the read/write alternation of a trace: a read maps to true, a
write to false, a timer registration is dropped. -/
def rwTag : ConnEvent → Option Bool
  | .read _ => some true
  | .write _ => some false
  | .registerTimer => none

def writePayloadOf : ConnEvent → Option Json
  | .write p => some p
  | _ => none

def trivialEnv : ExecEnv :=
  { sceneInfo := fun _ => .ok .null,
    objectInfo := fun _ => .ok .null,
    viewportScreenshot := fun _ => .ok .null,
    executeCode := fun _ => .ok .null,
    setTexture := fun _ => .ok .null }

def bogusCommand : Json := jObj [("tool", .str "bogus_tool"), ("params", jObj [])]

def unknownToolResponse : Json := jObj [("error", .str "Unknown tool: bogus_tool")]

def statusCommand : Json := jObj [("tool", .str "get_polyhaven_status"), ("params", jObj [])]

def searchCommand : Json := jObj [("tool", .str "search_polyhaven_assets"), ("params", jObj [])]

/-- The response of search_polyhaven_assets, whose serialization contains inner
closing braces. -/
def searchResponse : Json :=
  jObj [("assets", jArr
    [jObj [("id", .str "concrete_wall_01"), ("name", .str "Concrete Wall 01"),
           ("type", .str "textures"), ("category", .str "concrete")],
     jObj [("id", .str "wooden_floor_02"), ("name", .str "Wooden Floor 02"),
           ("type", .str "textures"), ("category", .str "wood")]])]

/-! ## Supporting lemmas: no raw newline inside a json.dumps payload -/

abbrev NoNL (s : String) : Prop := '\n' ∉ s.data

theorem data_append (a b : String) : (a ++ b).data = a.data ++ b.data := by
  cases a
  cases b
  rfl

theorem noNL_append {a b : String} (ha : NoNL a) (hb : NoNL b) : NoNL (a ++ b) := by
  intro h
  rw [data_append] at h
  rcases List.mem_append.mp h with h1 | h2
  · exact ha h1
  · exact hb h2

theorem hexDigit_ne_newline (n : Nat) : hexDigit n ≠ '\n' := by
  have h16 : n % 16 < 16 := Nat.mod_lt _ (by omega)
  have hall : ∀ k, k < 16 →
      (if k < 10 then Char.ofNat (48 + k) else Char.ofNat (87 + k)) ≠ '\n' := by decide
  have := hall (n % 16) h16
  unfold hexDigit
  exact this

theorem noNL_hex4 (n : Nat) : NoNL (hex4 n) := by
  intro h
  have h' : '\n' ∈ [hexDigit (n / 4096), hexDigit (n / 256), hexDigit (n / 16), hexDigit n] := h
  simp only [List.mem_cons, List.not_mem_nil, or_false] at h'
  rcases h' with h' | h' | h' | h' <;> exact hexDigit_ne_newline _ h'.symm

theorem noNL_escapeChar (c : Char) : NoNL (escapeChar c) := by
  unfold escapeChar
  repeat' split
  all_goals try decide
  · exact noNL_append (by decide) (noNL_hex4 _)
  · exact noNL_append (noNL_append (noNL_append (by decide) (noNL_hex4 _)) (by decide))
      (noNL_hex4 _)
  · next h1 h2 h3 h4 h5 h6 h7 h8 =>
      intro hmem
      have h' : '\n' ∈ [c] := hmem
      simp only [List.mem_singleton] at h'
      exact h3 h'.symm

theorem noNL_escapeList (l : List Char) : NoNL (escapeList l) := by
  induction l with
  | nil => decide
  | cons c cs ih => exact noNL_append (noNL_escapeChar c) ih

theorem noNL_dumpString (s : String) : NoNL (dumpString s) :=
  noNL_append (noNL_append (by decide) (noNL_escapeList s.data)) (by decide)

theorem noNL_natDigitsAux (fuel m : Nat) : '\n' ∉ natDigitsAux fuel m := by
  induction fuel generalizing m with
  | zero => cases m <;> simp [natDigitsAux]
  | succ f ih =>
      cases m with
      | zero => simp [natDigitsAux]
      | succ k =>
          intro h
          rcases List.mem_append.mp h with h1 | h2
          · exact ih _ h1
          · simp only [List.mem_singleton] at h2
            exact hexDigit_ne_newline _ h2.symm

theorem noNL_natRepr (n : Nat) : NoNL (natRepr n) := by
  unfold natRepr
  split
  · decide
  · intro h
    exact noNL_natDigitsAux n n h

theorem noNL_intRepr (i : Int) : NoNL (intRepr i) := by
  unfold intRepr
  split
  · exact noNL_append (by decide) (noNL_natRepr _)
  · exact noNL_natRepr _

mutual

theorem noNL_dumps : ∀ j : Json, NoNL (dumps j)
  | .null => by decide
  | .bool true => by decide
  | .bool false => by decide
  | .num n => noNL_intRepr n
  | .str s => noNL_dumpString s
  | .arr elems => noNL_append (noNL_append (by decide) (noNL_dumpsElems elems)) (by decide)
  | .obj fields => noNL_append (noNL_append (by decide) (noNL_dumpsFields fields)) (by decide)

theorem noNL_dumpsElems : ∀ l : JsonList, NoNL (dumpsElems l)
  | .nil => by decide
  | .cons j .nil => noNL_dumps j
  | .cons j (.cons j2 rest) =>
      noNL_append (noNL_append (noNL_dumps j) (by decide))
        (noNL_dumpsElems (.cons j2 rest))

theorem noNL_dumpsFields : ∀ l : JsonFields, NoNL (dumpsFields l)
  | .nil => by decide
  | .cons k v .nil => noNL_append (noNL_append (noNL_dumpString k) (by decide)) (noNL_dumps v)
  | .cons k v (.cons k2 v2 rest) =>
      noNL_append
        (noNL_append (noNL_append (noNL_append (noNL_dumpString k) (by decide)) (noNL_dumps v))
          (by decide))
        (noNL_dumpsFields (.cons k2 v2 rest))

end

/-! ## Supporting lemmas: host task queue invariants -/

theorem reachable_pending (s : BridgeState) (h : Reachable s) :
    s.finished ++ s.running ++ s.queue = List.range s.nextId := by
  induction h with
  | init => rfl
  | step t a t' _ hstep ih =>
      cases hstep with
      | enqueue w =>
          simp only [List.range_succ, ← ih, List.append_assoc]
      | hostStart _ x rest hrun hq =>
          rw [← ih, hrun, hq]
          simp
      | hostFinish _ x hrun =>
          rw [← ih, hrun]
          simp

theorem reachable_running_le_one (s : BridgeState) (h : Reachable s) :
    s.running.length ≤ 1 := by
  induction h with
  | init => simp [initBridge]
  | step t a t' _ hstep ih =>
      cases hstep with
      | enqueue w => exact ih
      | hostStart x rest hrun hq => simp
      | hostFinish x hrun => simp

theorem step_mutation_is_host (s : BridgeState) (a : Actor) (s' : BridgeState)
    (hstep : Step s a s') (h : s'.running ≠ s.running ∨ s'.finished ≠ s.finished) :
    a = Actor.host := by
  cases hstep with
  | enqueue w => rcases h with h | h <;> exact absurd rfl h
  | hostStart x rest hrun hq => rfl
  | hostFinish x hrun => rfl

theorem reachable_finished_fifo (s : BridgeState) (h : Reachable s) :
    s.finished = List.range s.finished.length := by
  have hp : s.finished ++ (s.running ++ s.queue) = List.range s.nextId := by
    rw [← List.append_assoc]
    exact reachable_pending s h
  have hlen : s.finished.length ≤ s.nextId := by
    have hl := congrArg List.length hp
    simp only [List.length_append, List.length_range] at hl
    omega
  have h1 : s.finished = (List.range s.nextId).take s.finished.length := by
    rw [← hp, List.take_left]
  calc s.finished = (List.range s.nextId).take s.finished.length := h1
    _ = List.range (min s.finished.length s.nextId) := List.take_range _ _
    _ = List.range s.finished.length := by rw [Nat.min_eq_left hlen]

theorem drain_from_empty : ∀ (q : List Nat) (s : BridgeState), s.queue = q →
    s.running = [] → ∀ t ∈ q, ∃ s', HostSteps s s' ∧ t ∈ s'.finished := by
  intro q
  induction q with
  | nil =>
      intro s _ _ t ht
      exact absurd ht (List.not_mem_nil t)
  | cons x rest ih =>
      intro s hq hr t ht
      have st1 : Step s .host { s with queue := rest, running := [x] } :=
        Step.hostStart s x rest hr hq
      have st2 : Step { s with queue := rest, running := [x] } .host
          { s with queue := rest, running := [], finished := s.finished ++ [x] } :=
        Step.hostFinish { s with queue := rest, running := [x] } x rfl
      rcases List.mem_cons.mp ht with hcase | hcase
      · refine ⟨{ s with queue := rest, running := [], finished := s.finished ++ [x] }, ?_, ?_⟩
        · exact HostSteps.step _ _ _ st1 (HostSteps.step _ _ _ st2 (HostSteps.refl _))
        · subst hcase
          simp
      · rcases ih { s with queue := rest, running := [], finished := s.finished ++ [x] }
          rfl rfl t hcase with ⟨s3, hsteps, hmem⟩
        exact ⟨s3, HostSteps.step _ _ _ st1 (HostSteps.step _ _ _ st2 hsteps), hmem⟩

theorem drain_queued (s : BridgeState) (hrun : s.running.length ≤ 1) (t : Nat)
    (ht : t ∈ s.queue) : ∃ s', HostSteps s s' ∧ t ∈ s'.finished := by
  cases hr : s.running with
  | nil => exact drain_from_empty s.queue s rfl hr t ht
  | cons r tail =>
      cases tail with
      | nil =>
          have st : Step s .host { s with running := [], finished := s.finished ++ [r] } :=
            Step.hostFinish s r hr
          rcases drain_from_empty s.queue
              { s with running := [], finished := s.finished ++ [r] } rfl rfl t ht with
            ⟨s', hsteps, hmem⟩
          exact ⟨s', HostSteps.step _ _ _ st hsteps, hmem⟩
      | cons r2 tail2 =>
          rw [hr] at hrun
          simp at hrun

/-! ## Supporting lemmas: registry lookup -/

theorem find_handlers_eq (env : ExecEnv) (s : String) (hs : s ∈ registeredTools) :
    ∃ h : Handler, (handlers env).find? (fun kv => kv.1 == s) = some (s, h) := by
  simp only [registeredTools, List.mem_cons, List.not_mem_nil, or_false] at hs
  rcases hs with rfl | rfl | rfl | rfl | rfl | rfl | rfl | rfl | rfl | rfl | rfl <;>
    exact ⟨_, rfl⟩

theorem find_handlers_eq_none (env : ExecEnv) (s : String) (hs : s ∉ registeredTools) :
    (handlers env).find? (fun kv => kv.1 == s) = none := by
  rw [List.find?_eq_none]
  intro kv hkv
  have h1 : kv.1 ∈ registeredTools := by
    simp only [handlers, List.mem_cons, List.not_mem_nil, or_false] at hkv
    rcases hkv with rfl | rfl | rfl | rfl | rfl | rfl | rfl | rfl | rfl | rfl | rfl <;>
      simp [registeredTools]
  intro hbeq
  exact hs (eq_of_beq hbeq ▸ h1)

theorem executeCommand_registered (env : ExecEnv) (fields : JsonFields) (s : String)
    (htool : dictGet fields "tool" (.str "") = .str s) (hs : s ∈ registeredTools) :
    ∃ h : Handler, (handlers env).find? (fun kv => kv.1 == s) = some (s, h) ∧
      executeCommand env (.obj fields) = h (dictGet fields "params" (jObj [])) := by
  rcases find_handlers_eq env s hs with ⟨h, hf⟩
  refine ⟨h, hf, ?_⟩
  simp only [executeCommand]
  rw [htool]
  simp only [hf]

theorem executeCommand_unknown (env : ExecEnv) (fields : JsonFields) (s : String)
    (htool : dictGet fields "tool" (.str "") = .str s) (hs : s ∉ registeredTools) :
    executeCommand env (.obj fields) = .ok (jObj [("error", .str ("Unknown tool: " ++ s))]) := by
  simp only [executeCommand]
  rw [htool]
  simp only [find_handlers_eq_none env s hs]

/-! ## Claim theorems -/

/-- C10: in execute_command a missing tool key defaults to the empty string and
a missing params key to the empty dict, so a decoded command object without a
tool key yields the Unknown-tool dispatch response with the empty name, as a
returned value rather than a protocol error or an uncaught exception, and a
handler of a command without a params key receives the empty mapping. -/
theorem missing_keys_default_c10 (env : ExecEnv) (fields : JsonFields)
    (htool : fieldsGet fields "tool" = none) :
    executeCommand env (.obj fields) = .ok (jObj [("error", .str "Unknown tool: ")]) ∧
    (∀ fs : JsonFields, fieldsGet fs "params" = none →
      dictGet fs "params" (jObj []) = jObj []) := by
  constructor
  · have htool' : dictGet fields "tool" (.str "") = .str "" := by
      simp [dictGet, htool]
    have hne : "" ∉ registeredTools := by decide
    have hres := executeCommand_unknown env fields "" htool' hne
    simpa using hres
  · intro fs hfs
    simp [dictGet, hfs]

/-- C10 witness: the empty command object. -/
theorem missing_keys_default_c10_witness :
    executeCommand trivialEnv (.obj .nil) = .ok (jObj [("error", .str "Unknown tool: ")]) :=
  (missing_keys_default_c10 trivialEnv .nil rfl).1

/-- C2 counterexample: for the unknown-tool command the worker loop still
registers the wrapper on the host timer queue before any tool check, so the
Affinity Bridge is invoked, contradicting the claim that it never is; the
response text itself is the claimed one. -/
theorem unknown_tool_bridge_invoked_c2_cex :
    WorkerEffect.registerTimer ∈ (processMessage trivialEnv (.ok bogusCommand) 30 0).1 ∧
    responseFor trivialEnv 30 (.ok bogusCommand) 0 = unknownToolResponse := by
  constructor
  · exact List.mem_cons_self _ _
  · rfl

/-- C2 amended: a command whose tool name is not registered is answered with
exactly the Unknown-tool error response, but the check happens inside
execute_command after the wrapper has been handed to the Affinity Bridge: the
worker loop registers the timer for every decoded command object, and the
error response travels back through the bridge wait. -/
theorem unknown_tool_response_c2 (env : ExecEnv) (fields : JsonFields) (name : String)
    (timeout completion : Nat)
    (htool : dictGet fields "tool" (.str "") = .str name)
    (hreg : name ∉ registeredTools) :
    executeCommand env (.obj fields) =
      .ok (jObj [("error", .str ("Unknown tool: " ++ name))]) ∧
    (processMessage env (.ok (.obj fields)) timeout completion).1 =
      [.registerTimer, .send (bridgeSend env (.obj fields) timeout completion)] ∧
    (completion ≤ timeout →
      bridgeSend env (.obj fields) timeout completion =
        jObj [("error", .str ("Unknown tool: " ++ name))]) := by
  have hcmd := executeCommand_unknown env fields name htool hreg
  refine ⟨hcmd, rfl, ?_⟩
  intro hle
  unfold bridgeSend
  rw [if_pos hle]
  unfold executeWrapper
  rw [hcmd]

/-- C2 witness: the amended claim at the bogus_tool command. -/
theorem unknown_tool_response_c2_witness :
    executeCommand trivialEnv bogusCommand = .ok unknownToolResponse ∧
    bridgeSend trivialEnv bogusCommand 30 0 = unknownToolResponse := by
  have h := unknown_tool_response_c2 trivialEnv
    (.cons "tool" (.str "bogus_tool") (.cons "params" (jObj []) .nil))
    "bogus_tool" 30 0 rfl (by decide)
  exact ⟨h.1, h.2.2 (by decide)⟩

/-- C4: a chunk that fails to decode as JSON produces exactly one error
response on the same connection, no bridge registration, the loop keeps the
connection open, and the worker goes on to read the following chunks of the
same connection. -/
theorem malformed_message_c4 (env : ExecEnv) (e : String) (timeout completion : Nat)
    (rest : List (Except String Json × Nat)) :
    processMessage env (.error e) timeout completion =
      ([.send (jObj [("error", .str ("Invalid JSON: " ++ e))])], true) ∧
    connTrace env timeout ((.error e, completion) :: rest) =
      .read (.error e) :: .write (jObj [("error", .str ("Invalid JSON: " ++ e))]) ::
        connTrace env timeout rest :=
  ⟨rfl, rfl⟩

/-- C7: start on an already running server returns without touching any server
state, stop is idempotent, and a stopped server is left stopped. -/
theorem lifecycle_idempotent_c7 (s : ServerState) (bindOk : Bool) :
    (s.running = true → serverStart bindOk s = s) ∧
    serverStop (serverStop s) = serverStop s ∧
    (serverStop s).running = false := by
  refine ⟨?_, ?_, rfl⟩
  · intro h
    simp [serverStart, h]
  · cases hs : s.socket <;> simp [serverStop, hs]

/-- C7 witness: a concrete running server state. -/
theorem lifecycle_idempotent_c7_witness :
    serverStart true
        { running := true, socket := some true, threadStarted := true,
          executorShutdown := false } =
      { running := true, socket := some true, threadStarted := true,
        executorShutdown := false } :=
  (lifecycle_idempotent_c7 _ true).1 rfl

/-- C9: whether the screenshot handler returns normally or the try body raises,
the finally block restores resolution_x, resolution_y, resolution_percentage
and filepath to their pre-call values, and the handler's bookkeeping touches no
other render state; on success the result is the base64 png payload, on a
raise the exception propagates. -/
theorem screenshot_restores_settings_c9 (renderResult : Except String (List Nat))
    (tempPath : String) (params : Json) (render : RenderSettings) :
    (getViewportScreenshot renderResult tempPath params render).2 = render ∧
    (∀ fields bytes, renderResult = .ok bytes → params = .obj fields →
      (getViewportScreenshot renderResult tempPath params render).1 =
        .ok (jObj [("image", .str (base64Encode bytes)), ("format", .str "png"),
                   ("width", dictGet fields "max_size" (.num 800)),
                   ("height", dictGet fields "max_size" (.num 800))])) ∧
    (∀ fields e, renderResult = .error e → params = .obj fields →
      (getViewportScreenshot renderResult tempPath params render).1 = .error e) := by
  refine ⟨?_, ?_, ?_⟩
  · cases params <;> cases renderResult <;> rfl
  · intro fields bytes h1 h2
    subst h1
    subst h2
    rfl
  · intro fields e h1 h2
    subst h1
    subst h2
    rfl

/-- C9 witness: a concrete successful call restores the settings and returns
the encoded image. -/
theorem screenshot_restores_settings_c9_witness :
    (getViewportScreenshot (.ok [0, 1, 2]) "/tmp/t.png" (jObj [])
        { resolution_x := .num 1920, resolution_y := .num 1080,
          resolution_percentage := .num 50, filepath := "/x" }).2 =
      { resolution_x := .num 1920, resolution_y := .num 1080,
        resolution_percentage := .num 50, filepath := "/x" } ∧
    (getViewportScreenshot (.ok [0, 1, 2]) "/tmp/t.png" (jObj [])
        { resolution_x := .num 1920, resolution_y := .num 1080,
          resolution_percentage := .num 50, filepath := "/x" }).1 =
      .ok (jObj [("image", .str "AAEC"), ("format", .str "png"),
                 ("width", .num 800), ("height", .num 800)]) := by
  constructor
  · exact (screenshot_restores_settings_c9 _ _ _ _).1
  · exact (screenshot_restores_settings_c9 _ _ _ _).2.1 .nil [0, 1, 2] rfl rfl

/-- C1: for a decoded command whose tool is registered, the worker blocks on
the completion event for at most the timeout, whose default is 30 time units;
when the event fires within the deadline the response is the populated slot —
the handler result or its caught failure — and when the deadline elapses first
the timeout error response is sent while the enqueued task is still eventually
executed by the host and its late result never reaches the wire. -/
theorem bridge_bounded_wait_c1 (env : ExecEnv) (fields : JsonFields) (name : String)
    (timeout completion : Nat)
    (htool : dictGet fields "tool" (.str "") = .str name)
    (hreg : name ∈ registeredTools) :
    defaultTimeout = 30 ∧
    bridgeUnblockTime timeout completion ≤ timeout ∧
    (completion ≤ timeout →
      bridgeSend env (.obj fields) timeout completion =
        (match executeCommand env (.obj fields) with
          | .ok r => r
          | .error e => jObj [("error", .str e)]) ∧
      ∃ h : Handler, (handlers env).find? (fun kv => kv.1 == name) = some (name, h) ∧
        executeCommand env (.obj fields) = h (dictGet fields "params" (jObj []))) ∧
    (timeout < completion →
      bridgeSend env (.obj fields) timeout completion = timeoutResponse) ∧
    (∀ s t, s.running.length ≤ 1 → t ∈ s.queue →
      ∃ s', HostSteps s s' ∧ t ∈ s'.finished) := by
  refine ⟨rfl, Nat.min_le_right _ _, ?_, ?_, ?_⟩
  · intro hle
    constructor
    · unfold bridgeSend
      rw [if_pos hle]
      unfold executeWrapper
      cases executeCommand env (.obj fields) <;> rfl
    · exact executeCommand_registered env fields name htool hreg
  · intro hlt
    unfold bridgeSend
    rw [if_neg (by omega)]
  · exact fun s t hrun ht => drain_queued s hrun t ht

/-- C1 witness: a registered status tool, answered within the deadline and
past it. -/
theorem bridge_bounded_wait_c1_witness :
    bridgeUnblockTime 30 5 ≤ 30 ∧
    bridgeSend trivialEnv statusCommand 30 5 =
      jObj [("status", .str "PolyHaven integration is enabled")] ∧
    bridgeSend trivialEnv statusCommand 30 99 = timeoutResponse := by
  have h5 := bridge_bounded_wait_c1 trivialEnv
    (.cons "tool" (.str "get_polyhaven_status") (.cons "params" (jObj []) .nil))
    "get_polyhaven_status" 30 5 rfl (by decide)
  have h99 := bridge_bounded_wait_c1 trivialEnv
    (.cons "tool" (.str "get_polyhaven_status") (.cons "params" (jObj []) .nil))
    "get_polyhaven_status" 30 99 rfl (by decide)
  exact ⟨h5.2.1, ((h5.2.2.1 (by omega)).1).trans rfl, h99.2.2.2.1 (by omega)⟩

/-- C3: in the host task queue semantics, at most one task is executing at any
instant, only the host actor ever starts or finishes a task (a worker step
changes neither the running nor the finished list), and tasks finish in
exactly their enqueue order. -/
theorem affinity_serial_fifo_c3 :
    (∀ s, Reachable s → s.running.length ≤ 1) ∧
    (∀ s a s', Step s a s' →
      (s'.running ≠ s.running ∨ s'.finished ≠ s.finished) → a = Actor.host) ∧
    (∀ s, Reachable s → s.finished = List.range s.finished.length) :=
  ⟨reachable_running_le_one, step_mutation_is_host, reachable_finished_fifo⟩

/-- C3 witness: a concrete enqueue, start, finish run of one task. -/
theorem affinity_serial_fifo_c3_witness :
    ({ queue := [], running := [], finished := [0], nextId := 1 } :
      BridgeState).running.length ≤ 1 ∧
    ({ queue := [], running := [], finished := [0], nextId := 1 } :
      BridgeState).finished = List.range 1 ∧
    Actor.host = Actor.host := by
  have h1 : Reachable { queue := [0], running := [], finished := [], nextId := 1 } :=
    Reachable.step _ _ _ Reachable.init (Step.enqueue 7 initBridge)
  have h2 : Reachable { queue := [], running := [0], finished := [], nextId := 1 } :=
    Reachable.step _ _ _ h1 (Step.hostStart _ 0 [] rfl rfl)
  have h3 : Reachable { queue := [], running := [], finished := [0], nextId := 1 } :=
    Reachable.step _ _ _ h2 (Step.hostFinish _ 0 rfl)
  refine ⟨affinity_serial_fifo_c3.1 _ h3, affinity_serial_fifo_c3.2.2 _ h3, ?_⟩
  exact affinity_serial_fifo_c3.2.1 _ _ _ (Step.hostFinish
    { queue := [], running := [0], finished := [], nextId := 1 } 0 rfl)
    (Or.inr (by decide))

/-- C5: execute_wrapper writes the handler result or the caught exception into
the result slot, sets the one-shot completion event exactly once on every
path, and returns None so the timer system never re-registers it; in the queue
semantics a finished task never reappears, so each task runs at most once. -/
theorem wrapper_completes_once_c5 (env : ExecEnv) (command : Json) :
    (executeWrapper env command).signalSets = 1 ∧
    (executeWrapper env command).timerReturn = none ∧
    (∀ r, executeCommand env command = .ok r → (executeWrapper env command).slot = r) ∧
    (∀ e, executeCommand env command = .error e →
      (executeWrapper env command).slot = jObj [("error", .str e)]) ∧
    (∀ s, Reachable s → s.finished.Nodup) := by
  refine ⟨?_, ?_, ?_, ?_, ?_⟩
  · unfold executeWrapper
    cases executeCommand env command <;> rfl
  · unfold executeWrapper
    cases executeCommand env command <;> rfl
  · intro r h
    unfold executeWrapper
    rw [h]
  · intro e h
    unfold executeWrapper
    rw [h]
  · intro s hs
    have hf := reachable_finished_fifo s hs
    rw [hf]
    exact List.nodup_range _

/-- C5 witness: the wrapper effect at a concrete command, the caught failure
of a non-object command, and a concrete reachable finished list. -/
theorem wrapper_completes_once_c5_witness :
    (executeWrapper trivialEnv bogusCommand).signalSets = 1 ∧
    (executeWrapper trivialEnv (.str "oops")).slot =
      jObj [("error", .str (noAttrGet (.str "oops")))] ∧
    ([0] : List Nat).Nodup := by
  have h1 : Reachable { queue := [0], running := [], finished := [], nextId := 1 } :=
    Reachable.step _ _ _ Reachable.init (Step.enqueue 7 initBridge)
  have h2 : Reachable { queue := [], running := [0], finished := [], nextId := 1 } :=
    Reachable.step _ _ _ h1 (Step.hostStart _ 0 [] rfl rfl)
  have h3 : Reachable { queue := [], running := [], finished := [0], nextId := 1 } :=
    Reachable.step _ _ _ h2 (Step.hostFinish _ 0 rfl)
  refine ⟨(wrapper_completes_once_c5 trivialEnv bogusCommand).1, ?_, ?_⟩
  · exact (wrapper_completes_once_c5 trivialEnv (.str "oops")).2.2.2.1 _ rfl
  · exact (wrapper_completes_once_c5 trivialEnv bogusCommand).2.2.2.2 _ h3

/-- C6 counterexample: the stdio codec ends every response with the newline
delimiter, but the TCP bridge writes the bare JSON document: its encoding of
the unknown-tool response — an actual response of the dispatcher — ends in a
closing brace with no delimiter byte appended, and the closing brace cannot
itself serve as a delimiter because it also occurs strictly inside the body of
the search response; so the bridge transport does not use a consistent message
delimiter in its two directions. -/
theorem framing_divergence_c6_cex :
    responseFor trivialEnv 30 (.ok bogusCommand) 0 = unknownToolResponse ∧
    (magickEncodeResponse unknownToolResponse).data.getLast? = some '\n' ∧
    (addonEncodeResponse unknownToolResponse).data.getLast? = some '\x7d' ∧
    '\n' ∉ (addonEncodeResponse unknownToolResponse).data ∧
    executeCommand trivialEnv searchCommand = .ok searchResponse ∧
    '\x7d' ∈ (addonEncodeResponse searchResponse).data.dropLast := by
  refine ⟨rfl, ?_, ?_, ?_, rfl, ?_⟩ <;> decide

/-- C6 amended: the stdio image server does frame one JSON object per message
with the newline delimiter in both directions, and a json.dumps payload can
never contain an unescaped newline byte; the TCP bridge instead writes each
response as a bare JSON document with no message delimiter and decodes each
received chunk as one document, so no consistent delimiter is used on that
transport. -/
theorem newline_framing_c6 (r : Json) :
    '\n' ∉ (dumps r).data ∧
    magickEncodeResponse r = dumps r ++ "\n" ∧
    (magickEncodeResponse r).data.count '\n' = 1 ∧
    (magickEncodeResponse r).data.getLast? = some '\n' ∧
    addonEncodeResponse r = dumps r := by
  have hdata : (magickEncodeResponse r).data = (dumps r).data ++ ['\n'] := data_append _ _
  refine ⟨noNL_dumps r, rfl, ?_, ?_, rfl⟩
  · rw [hdata, List.count_append]
    have h0 : (dumps r).data.count '\n' = 0 := List.count_eq_zero.mpr (noNL_dumps r)
    simp [h0]
  · rw [hdata]
    simp

/-- C8: within one connection the worker loop is strictly sequential: the
read/write projection of the connection trace alternates one read then one
write per received chunk, so response N is fully written before request N+1 is
read, and the written payloads are exactly the per-request responses in
request order. -/
theorem connection_sequential_c8 (env : ExecEnv) (timeout : Nat)
    (msgs : List (Except String Json × Nat)) :
    (connTrace env timeout msgs).filterMap rwTag =
      (msgs.map (fun _ => [true, false])).flatten ∧
    (connTrace env timeout msgs).filterMap writePayloadOf =
      msgs.map (fun mc => responseFor env timeout mc.1 mc.2) := by
  induction msgs with
  | nil => exact ⟨rfl, rfl⟩
  | cons mc rest ih =>
      obtain ⟨m, c⟩ := mc
      constructor
      · cases m with
        | error e =>
            simpa [connTrace, processMessage, rwTag, effectEvent] using ih.1
        | ok j =>
            cases j <;>
              simpa [connTrace, processMessage, rwTag, effectEvent] using ih.1
      · cases m with
        | error e =>
            simpa [connTrace, processMessage, responseFor, writePayloadOf, effectEvent]
              using ih.2
        | ok j =>
            cases j <;>
              simpa [connTrace, processMessage, responseFor, writePayloadOf, effectEvent]
                using ih.2

end BlenderMCP
